import Mathlib

/-!
Shallow embedding of the group service (src/server/src/group/group.service.ts).

The service orchestrates four MongoDB collections: Group, GroupMember,
GroupInvite and GroupApplication.  We model each collection as a list of
documents and the database as a record of the four lists.  MongoDB's
distinction between a field that is missing and a field that is present with
value null matters here (query `appid: null` matches both, while
`appid: $exists false` matches only the missing field), so the `appid` field
of a Group document is `Option (Option String)`: `none` means the field is
absent, `some none` means it is present with value null, and `some (some s)`
means it holds the string `s`.  The Node.js MongoDB driver serializes an
`undefined` value as null by default (`ignoreUndefined` is false), so
`insertOne` with an omitted `appid` argument stores the key with value null.

Transactions are modelled by explicit state passing: an operation returns an
`Except` result together with the database that is visible after the
operation.  A fault model (one boolean per fallible step) lets any step of a
transactional protocol throw; on a throw the transaction is not committed,
so the returned database is the original one, and the error is re-raised.
Session lifecycle is modelled by a `SessionLog` recording whether the call
started its own session, ended its own session, and ended a borrowed one.
-/

namespace GroupService

/-- Role of a group member.  Modelled from the spec: the `GroupRole` enum of
entities/group-member is not under src; the spec says the role set contains at
least Owner, plus other roles. -/
inductive GroupRole where
  | Owner
  | Admin
  | Member
deriving DecidableEq, Repr

/-- A document of the Group collection (entities/group).  The `appid` field is
`Option (Option String)`: `none` = field absent, `some none` = field present
with value null, `some (some s)` = field holds string `s`. -/
structure Group where
  _id : Nat
  name : String
  appid : Option (Option String)
  createdBy : Nat
  createdAt : Nat
  updatedAt : Nat
deriving DecidableEq, Repr

/-- A document of the GroupMember collection (entities/group-member). -/
structure GroupMember where
  groupId : Nat
  uid : Nat
  role : GroupRole
deriving DecidableEq, Repr

/-- A document of the GroupApplication collection (entities/group-application):
one record per group, holding the appid (null for plain groups). -/
structure GroupApplication where
  groupId : Nat
  appid : Option String
deriving DecidableEq, Repr

/-- Modelled from the spec: a document of the GroupInvite collection (the
invite entity is not under src); an invite code scoped to a groupId. -/
structure GroupInvite where
  groupId : Nat
  code : String
deriving DecidableEq, Repr

/-- The system database: the four collections the service touches. -/
structure DB where
  groups : List Group
  members : List GroupMember
  invites : List GroupInvite
  applications : List GroupApplication
deriving DecidableEq, Repr

/-- Well-formedness invariants of the stored data: Group ids are unique,
(groupId, uid) pairs of GroupMember are unique, and each group has at most one
GroupApplication record (appended once at creation). -/
abbrev DB.WF (db : DB) : Prop :=
  (db.groups.map (fun g => g._id)).Nodup ∧
  (db.members.map (fun m => (m.groupId, m.uid))).Nodup ∧
  (db.applications.map (fun a => a.groupId)).Nodup

/-- MongoDB query semantics of matching a field against the literal null: a
document matches when the field is missing or when it is present with value
null. -/
def matchesNull (a : Option (Option String)) : Bool :=
  match a with
  | none => true
  | some none => true
  | some (some _) => false

/-- `findGroupByAppid(appid)`: `findOne` on the Group collection with filter
`appid = the given string`. -/
def findGroupByAppid (appid : String) (db : DB) : Option Group :=
  db.groups.find? (fun g => g.appid = some (some appid))

/-- `findOne(groupId, session?)`: point lookup of a Group by `_id`. -/
def findOne (groupId : Nat) (db : DB) : Option Group :=
  db.groups.find? (fun g => g._id = groupId)

/-- Output row of the `findAll` aggregation: the projected group fields plus
the `members` array of (role, uid) pairs. -/
structure FindAllRow where
  _id : Nat
  name : String
  createdAt : Nat
  updatedAt : Nat
  members : List (GroupRole × Nat)
deriving DecidableEq, Repr

/-- `findAll(uid)`: aggregation over GroupMember.  Stage 1 matches the
caller's membership rows; stage 2 is a `lookup` into Group on
`groupId = _id` with sub-pipeline filter `appid: null`, followed by `unwind`
(drop rows whose lookup is empty); stage 3 is a `lookup` of all GroupMember
rows of that group projected to (role, uid); stage 4 projects the output
row. -/
def findAll (uid : Nat) (db : DB) : List FindAllRow :=
  (db.members.filter (fun m => m.uid = uid)).flatMap (fun m =>
    (db.groups.filter (fun g => g._id = m.groupId ∧ matchesNull g.appid)).map
      (fun g =>
        { _id := g._id
          name := g.name
          createdAt := g.createdAt
          updatedAt := g.updatedAt
          members := (db.members.filter (fun m2 => m2.groupId = m.groupId)).map
            (fun m2 => (m2.role, m2.uid)) }))

/-- `countGroups(uid)`: `countDocuments` on Group with filter
`createdBy = uid` and `appid: $exists false` (the field must be absent; a
present null does not match). -/
def countGroups (uid : Nat) (db : DB) : Nat :=
  (db.groups.filter (fun g => g.createdBy = uid ∧ g.appid = none)).length

/-- Output row of the role-annotated aggregations: projected group fields plus
the caller's role. -/
structure RoleRow where
  _id : Nat
  name : String
  createdAt : Nat
  updatedAt : Nat
  role : GroupRole
deriving DecidableEq, Repr

/-- `findGroupsByAppidAndUid(appid, uid)`: aggregation over GroupApplication.
Stage 1 matches application rows whose `appid` equals the given string;
stage 2 is a `lookup` into Group on `groupId = _id` with `unwind`; stage 3 is
a correlated `lookup` into GroupMember matching `groupId = this row's groupId`
and `uid = the given uid`, with `unwind`; stage 4 projects the group fields
and the member's role. -/
def findGroupsByAppidAndUid (appid : String) (uid : Nat) (db : DB) :
    List RoleRow :=
  (db.applications.filter (fun a => a.appid = some appid)).flatMap (fun a =>
    (db.groups.filter (fun g => g._id = a.groupId)).flatMap (fun g =>
      (db.members.filter (fun m => m.groupId = a.groupId ∧ m.uid = uid)).map
        (fun m =>
          { _id := g._id
            name := g.name
            createdAt := g.createdAt
            updatedAt := g.updatedAt
            role := m.role })))

/-- `findOneWithRole(groupId, uid)`: aggregation over GroupMember matching
both `groupId` and `uid`, `lookup` into Group with `unwind`, projection, and
`next()` (the first result document or absent). -/
def findOneWithRole (groupId uid : Nat) (db : DB) : Option RoleRow :=
  ((db.members.filter (fun m => m.groupId = groupId ∧ m.uid = uid)).flatMap
    (fun m =>
      (db.groups.filter (fun g => g._id = m.groupId)).map (fun g =>
        { _id := g._id
          name := g.name
          createdAt := g.createdAt
          updatedAt := g.updatedAt
          role := m.role }))).head?

/-- The `Partial Group` argument of `update`: each updatable field may be
supplied or omitted.  A supplied `appid` is stored as a present string. -/
structure GroupDto where
  name : Option String
  appid : Option String
  createdBy : Option Nat
  createdAt : Option Nat
  updatedAt : Option Nat
deriving DecidableEq, Repr

/-- The effect of `$set` with the spread dto followed by the `updatedAt` key:
every supplied dto field overwrites the stored one, and `updatedAt` is set to
the current time last, overriding any `updatedAt` supplied in the dto. -/
def applyDto (g : Group) (dto : GroupDto) (now : Nat) : Group :=
  { _id := g._id
    name := dto.name.getD g.name
    appid := match dto.appid with
             | some v => some (some v)
             | none => g.appid
    createdBy := dto.createdBy.getD g.createdBy
    createdAt := dto.createdAt.getD g.createdAt
    updatedAt := now }

/-- `findOneAndUpdate` on a list of Group documents: update the first document
matching `_id = groupId` and return the post-update document (`returnDocument
after`), or return absent and leave the list unchanged when no document
matches. -/
def findOneAndUpdateGroups (groupId : Nat) (dto : GroupDto) (now : Nat) :
    List Group → Option Group × List Group
  | [] => (none, [])
  | g :: gs =>
    if g._id = groupId then
      (some (applyDto g dto now), applyDto g dto now :: gs)
    else
      let r := findOneAndUpdateGroups groupId dto now gs
      (r.1, g :: r.2)

/-- `update(groupId, dto)`: `findOneAndUpdate` with `$set` of the dto spread
plus `updatedAt = now`, returning `res.value` (the post-update document or
null). -/
def update (groupId : Nat) (dto : GroupDto) (now : Nat) (db : DB) :
    Option Group × DB :=
  ((findOneAndUpdateGroups groupId dto now db.groups).1,
   { db with groups := (findOneAndUpdateGroups groupId dto now db.groups).2 })

/-- Which steps of the `create` transaction throw, one flag per fallible
storage call: the Group insert, the Owner-membership insert, the
GroupApplication append, and the re-read of the new Group. -/
structure CreateFaults where
  insertGroup : Bool
  addMember : Bool
  appendApplication : Bool
  reread : Bool
deriving DecidableEq, Repr

/-- The fault assignment under which every step of `create` succeeds. -/
def noCreateFaults : CreateFaults :=
  { insertGroup := false, addMember := false, appendApplication := false,
    reread := false }

/-- Record of session lifecycle events of one service call: whether the call
started a session of its own, whether it ended that own session, and whether
it ended a session that was borrowed from the caller. -/
structure SessionLog where
  ownStarted : Bool
  ownEnded : Bool
  borrowedEnded : Bool
deriving DecidableEq, Repr

/-- `create(name, createdBy, appid?)`: start a session, run one transaction
that (1) inserts the Group document (with the appid key always present; an
omitted argument is serialized as null), (2) adds the Owner membership row,
(3) appends the GroupApplication record, (4) re-reads the new Group in the
same transaction and returns it.  If any step throws, the transaction is not
committed (the visible database is unchanged) and the error is re-raised
after logging.  The `finally` block always ends the session the call
started. -/
def create (f : CreateFaults) (newId now : Nat) (name : String)
    (createdBy : Nat) (appid : Option String) (db : DB) :
    Except String (Option Group) × DB × SessionLog :=
  let log : SessionLog :=
    { ownStarted := true, ownEnded := true, borrowedEnded := false }
  if f.insertGroup then (.error "insert group failed", db, log)
  else
    let g : Group :=
      { _id := newId, name := name, appid := some appid,
        createdBy := createdBy, createdAt := now, updatedAt := now }
    let db1 : DB := { db with groups := db.groups ++ [g] }
    if f.addMember then (.error "add member failed", db, log)
    else
      let db2 : DB :=
        { db1 with members :=
            db1.members ++ [{ groupId := newId, uid := createdBy,
                              role := GroupRole.Owner }] }
      if f.appendApplication then (.error "append application failed", db, log)
      else
        let db3 : DB :=
          { db2 with applications :=
              db2.applications ++ [{ groupId := newId, appid := appid }] }
        if f.reread then (.error "reread failed", db, log)
        else (.ok (findOne newId db3), db3, log)

/-- Which steps of the `delete` transaction throw, one flag per fallible
storage call: the Group `deleteOne`, the membership `removeAll`, the invite
`deleteManyInviteCode`, and the application `removeAll`. -/
structure DeleteFaults where
  deleteGroup : Bool
  removeMembers : Bool
  deleteInvites : Bool
  removeApplications : Bool
deriving DecidableEq, Repr

/-- The fault assignment under which every step of `delete` succeeds. -/
def noDeleteFaults : DeleteFaults :=
  { deleteGroup := false, removeMembers := false, deleteInvites := false,
    removeApplications := false }

/-- `delete(groupId, session?)`: if no session was supplied, start an own
session and remember to end it (`needEndSession`).  Pre-read the Group, then
in one transaction `deleteOne` the Group document (MongoDB deletes the first
matching document), remove all GroupMember rows, all GroupInvite codes and
all GroupApplication records of the group (modelled from the spec for the
three collaborator stores: keyed bulk deletes), and commit; on any error the
transaction is aborted (the visible database is unchanged) and the error is
re-raised after logging.  The `finally` block ends the session only when the
call started it: a borrowed session is never ended. -/
def delete (f : DeleteFaults) (borrowed : Bool) (groupId : Nat) (db : DB) :
    Except String (Option Group) × DB × SessionLog :=
  let log : SessionLog :=
    { ownStarted := !borrowed, ownEnded := !borrowed, borrowedEnded := false }
  let group := findOne groupId db
  if f.deleteGroup then (.error "delete group failed", db, log)
  else
    let db1 : DB :=
      { db with groups := db.groups.eraseP (fun g => g._id = groupId) }
    if f.removeMembers then (.error "remove members failed", db, log)
    else
      let db2 : DB :=
        { db1 with members :=
            db1.members.filter (fun m => ¬m.groupId = groupId) }
      if f.deleteInvites then (.error "delete invites failed", db, log)
      else
        let db3 : DB :=
          { db2 with invites :=
              db2.invites.filter (fun i => ¬i.groupId = groupId) }
        if f.removeApplications then
          (.error "remove applications failed", db, log)
        else
          let db4 : DB :=
            { db3 with applications :=
                db3.applications.filter (fun a => ¬a.groupId = groupId) }
          (.ok group, db4, log)

/-- The empty database: all four collections empty. -/
def emptyDB : DB :=
  { groups := [], members := [], invites := [], applications := [] }

/-- A sample one-group database with one member, one invite and one
application record, used in concrete witnesses. -/
def memberDB : DB :=
  { groups := [{ _id := 5, name := "g", appid := some (some "app1"),
                 createdBy := 7, createdAt := 0, updatedAt := 0 }],
    members := [{ groupId := 5, uid := 7, role := GroupRole.Owner }],
    invites := [{ groupId := 5, code := "c1" }],
    applications := [{ groupId := 5, appid := some "app1" }] }

/-- A sample application-scoped Group document used in concrete witnesses. -/
def sampleAppGroup : Group :=
  { _id := 5, name := "g", appid := some (some "app1"), createdBy := 7,
    createdAt := 0, updatedAt := 0 }

/-! Helper lemmas about counting in lists, shared by the claim proofs. -/

theorem countP_flatMap_eq_sum {α β : Type} (l : List α) (f : α → List β)
    (p : β → Bool) :
    (l.flatMap f).countP p = (l.map (fun a => (f a).countP p)).sum := by
  induction l with
  | nil => simp
  | cons a l ih => simp [List.flatMap_cons, List.countP_append, ih]

theorem sum_map_ite_count {α : Type} (l : List α) (P : α → Prop)
    [DecidablePred P] (c : Nat) :
    (l.map (fun a => if P a then c else 0)).sum =
      c * l.countP (fun a => P a) := by
  induction l with
  | nil => simp
  | cons a l ih =>
    by_cases h : P a <;>
      simp [h, ih, List.countP_cons, Nat.mul_add, Nat.mul_one, Nat.add_comm]

theorem countP_eq_ite_of_pairwise {α : Type} {p : α → Bool} {l : List α}
    (h : l.Pairwise (fun a b => ¬(p a = true ∧ p b = true))) :
    l.countP p = if ∃ x ∈ l, p x = true then 1 else 0 := by
  induction l with
  | nil => simp
  | cons a l ih =>
    rw [List.pairwise_cons] at h
    by_cases ha : p a = true
    · have h0 : l.countP p = 0 :=
        List.countP_eq_zero.mpr (fun x hx hpx => h.1 x hx ⟨ha, hpx⟩)
      have hex : ∃ x ∈ a :: l, p x = true := ⟨a, List.mem_cons_self a l, ha⟩
      simp [List.countP_cons, ha, h0, hex]
    · have hiff : (∃ x ∈ a :: l, p x = true) ↔ ∃ x ∈ l, p x = true := by
        constructor
        · rintro ⟨x, hx, hpx⟩
          rcases List.mem_cons.mp hx with rfl | hx'
          · exact absurd hpx ha
          · exact ⟨x, hx', hpx⟩
        · rintro ⟨x, hx, hpx⟩
          exact ⟨x, List.mem_cons_of_mem a hx, hpx⟩
      rw [List.countP_cons_of_neg _ _ ha, ih h.2]
      simp only [hiff]

theorem countP_le_one_of_pairwise {α : Type} {p : α → Bool} {l : List α}
    (h : l.Pairwise (fun a b => ¬(p a = true ∧ p b = true))) :
    l.countP p ≤ 1 := by
  rw [countP_eq_ite_of_pairwise h]
  split <;> omega

theorem countP_eraseP_eq_zero {α : Type} {p : α → Bool} {l : List α}
    (h : l.countP p ≤ 1) : (l.eraseP p).countP p = 0 := by
  induction l with
  | nil => simp
  | cons a l ih =>
    by_cases ha : p a = true
    · rw [List.eraseP_cons_of_pos ha]
      rw [List.countP_cons_of_pos _ _ ha] at h
      omega
    · rw [List.eraseP_cons_of_neg (by simpa using ha),
        List.countP_cons_of_neg _ _ (by simpa using ha)]
      rw [List.countP_cons_of_neg _ _ (by simpa using ha)] at h
      exact ih h

theorem delete_log (f : DeleteFaults) (b : Bool) (gid : Nat) (db : DB) :
    (delete f b gid db).2.2 =
      { ownStarted := !b, ownEnded := !b, borrowedEnded := false } := by
  rcases f with ⟨f1, f2, f3, f4⟩
  cases f1 <;> cases f2 <;> cases f3 <;> cases f4 <;> rfl

theorem create_log (f : CreateFaults) (newId now : Nat) (name : String)
    (createdBy : Nat) (appid : Option String) (db : DB) :
    (create f newId now name createdBy appid db).2.2 =
      { ownStarted := true, ownEnded := true, borrowedEnded := false } := by
  rcases f with ⟨f1, f2, f3, f4⟩
  cases f1 <;> cases f2 <;> cases f3 <;> cases f4 <;> rfl

/-- The Group document inserted by `create`. -/
def newGroupDoc (newId now : Nat) (name : String) (createdBy : Nat)
    (appid : Option String) : Group :=
  { _id := newId, name := name, appid := some appid, createdBy := createdBy,
    createdAt := now, updatedAt := now }

/-- The database state committed by a fault-free `create`. -/
def createCommitted (newId now : Nat) (name : String) (createdBy : Nat)
    (appid : Option String) (db : DB) : DB :=
  { groups := db.groups ++ [newGroupDoc newId now name createdBy appid],
    members := db.members ++ [{ groupId := newId, uid := createdBy,
                                role := GroupRole.Owner }],
    invites := db.invites,
    applications := db.applications ++ [{ groupId := newId, appid := appid }] }

theorem create_noFaults_eq (newId now : Nat) (name : String) (createdBy : Nat)
    (appid : Option String) (db : DB) :
    create noCreateFaults newId now name createdBy appid db =
      (Except.ok
        (findOne newId (createCommitted newId now name createdBy appid db)),
       createCommitted newId now name createdBy appid db,
       { ownStarted := true, ownEnded := true, borrowedEnded := false }) :=
  rfl

theorem create_fault_eq (f : CreateFaults) (newId now : Nat) (name : String)
    (createdBy : Nat) (appid : Option String) (db : DB)
    (hf : f ≠ noCreateFaults) :
    (∃ e, (create f newId now name createdBy appid db).1 = Except.error e) ∧
    (create f newId now name createdBy appid db).2.1 = db := by
  rcases f with ⟨f1, f2, f3, f4⟩
  cases f1 <;> cases f2 <;> cases f3 <;> cases f4 <;>
    first
      | exact absurd rfl hf
      | exact ⟨⟨_, rfl⟩, rfl⟩

theorem find?_append_left_none {α : Type} {p : α → Bool} {l1 l2 : List α}
    (h : ∀ x ∈ l1, ¬p x = true) : (l1 ++ l2).find? p = l2.find? p := by
  rw [List.find?_append, List.find?_eq_none.mpr h, Option.none_or]

/-- C1: atomicity of `create`.  With a fresh id, a fault-free `create` commits
exactly one Group document, exactly one Owner GroupMember row and exactly one
GroupApplication record for the new id and returns the re-read Group; if any
of the four steps throws, the transaction is not committed, so the database
is unchanged (hence zero rows exist for the attempted id in all three
collections) and the error is re-raised to the caller. -/
theorem create_atomicity (f : CreateFaults) (newId now : Nat) (name : String)
    (createdBy : Nat) (appid : Option String) (db : DB)
    (hg : db.groups.countP (fun g => g._id = newId) = 0)
    (hm : db.members.countP (fun m => m.groupId = newId) = 0)
    (ha : db.applications.countP (fun a => a.groupId = newId) = 0) :
    (f = noCreateFaults →
      (create f newId now name createdBy appid db).1 =
        Except.ok (some (newGroupDoc newId now name createdBy appid)) ∧
      (create f newId now name createdBy appid db).2.1.groups.countP
          (fun g => g._id = newId) = 1 ∧
      (create f newId now name createdBy appid db).2.1.members.countP
          (fun m => m.groupId = newId) = 1 ∧
      ({ groupId := newId, uid := createdBy, role := GroupRole.Owner } :
          GroupMember) ∈ (create f newId now name createdBy appid db).2.1.members ∧
      (create f newId now name createdBy appid db).2.1.applications.countP
          (fun a => a.groupId = newId) = 1) ∧
    (f ≠ noCreateFaults →
      (∃ e, (create f newId now name createdBy appid db).1 = Except.error e) ∧
      (create f newId now name createdBy appid db).2.1 = db ∧
      (create f newId now name createdBy appid db).2.1.groups.countP
          (fun g => g._id = newId) = 0 ∧
      (create f newId now name createdBy appid db).2.1.members.countP
          (fun m => m.groupId = newId) = 0 ∧
      (create f newId now name createdBy appid db).2.1.applications.countP
          (fun a => a.groupId = newId) = 0) := by
  constructor
  · rintro rfl
    rw [create_noFaults_eq]
    refine ⟨?_, ?_, ?_, ?_, ?_⟩
    · show Except.ok (findOne newId _) = _
      unfold findOne createCommitted
      rw [find?_append_left_none (fun x hx => by
        simpa using (List.countP_eq_zero.mp hg) x hx)]
      simp [newGroupDoc]
    · simp [createCommitted, List.countP_append, hg, newGroupDoc]
    · simp [createCommitted, List.countP_append, hm]
    · simp [createCommitted]
    · simp [createCommitted, List.countP_append, ha]
  · intro hf
    obtain ⟨he, hdb⟩ :=
      create_fault_eq f newId now name createdBy appid db hf
    exact ⟨he, hdb, by rw [hdb]; exact hg, by rw [hdb]; exact hm,
      by rw [hdb]; exact ha⟩

theorem create_atomicity_witness :
    (emptyDB.groups.countP (fun g => g._id = 1) = 0 ∧
     emptyDB.members.countP (fun m => m.groupId = 1) = 0 ∧
     emptyDB.applications.countP (fun a => a.groupId = 1) = 0) ∧
    ((create noCreateFaults 1 2 "team" 7 (some "app1") emptyDB).1 =
       Except.ok (some (newGroupDoc 1 2 "team" 7 (some "app1"))) ∧
     (create noCreateFaults 1 2 "team" 7 (some "app1") emptyDB).2.1.groups.countP
        (fun g => g._id = 1) = 1) ∧
    (∃ e, (create { noCreateFaults with addMember := true } 1 2 "team" 7
        (some "app1") emptyDB).1 = Except.error e) :=
  ⟨⟨by decide, by decide, by decide⟩,
   ⟨((create_atomicity noCreateFaults 1 2 "team" 7 (some "app1") emptyDB
        (by decide) (by decide) (by decide)).1 rfl).1,
    ((create_atomicity noCreateFaults 1 2 "team" 7 (some "app1") emptyDB
        (by decide) (by decide) (by decide)).1 rfl).2.1⟩,
   ((create_atomicity { noCreateFaults with addMember := true } 1 2 "team" 7
        (some "app1") emptyDB (by decide) (by decide) (by decide)).2
      (by decide)).1⟩

/-- The database state committed by a fault-free `delete`. -/
def deleteCommitted (groupId : Nat) (db : DB) : DB :=
  { groups := db.groups.eraseP (fun g => g._id = groupId),
    members := db.members.filter (fun m => ¬m.groupId = groupId),
    invites := db.invites.filter (fun i => ¬i.groupId = groupId),
    applications := db.applications.filter (fun a => ¬a.groupId = groupId) }

theorem delete_noFaults_eq (b : Bool) (groupId : Nat) (db : DB) :
    delete noDeleteFaults b groupId db =
      (Except.ok (findOne groupId db), deleteCommitted groupId db,
       { ownStarted := !b, ownEnded := !b, borrowedEnded := false }) :=
  rfl

theorem delete_fault_eq (f : DeleteFaults) (b : Bool) (groupId : Nat)
    (db : DB) (hf : f ≠ noDeleteFaults) :
    (∃ e, (delete f b groupId db).1 = Except.error e) ∧
    (delete f b groupId db).2.1 = db := by
  rcases f with ⟨f1, f2, f3, f4⟩
  cases f1 <;> cases f2 <;> cases f3 <;> cases f4 <;>
    first
      | exact absurd rfl hf
      | exact ⟨⟨_, rfl⟩, rfl⟩

theorem deleteCommitted_counts (groupId : Nat) (db : DB) (hwf : db.WF) :
    (deleteCommitted groupId db).groups.countP (fun g => g._id = groupId) = 0 ∧
    (deleteCommitted groupId db).members.countP
      (fun m => m.groupId = groupId) = 0 ∧
    (deleteCommitted groupId db).invites.countP
      (fun i => i.groupId = groupId) = 0 ∧
    (deleteCommitted groupId db).applications.countP
      (fun a => a.groupId = groupId) = 0 := by
  simp only [deleteCommitted]
  refine ⟨?_, ?_, ?_, ?_⟩
  · apply countP_eraseP_eq_zero
    apply countP_le_one_of_pairwise
    have hp := List.pairwise_map.mp hwf.1
    exact hp.imp (fun hne h12 => by
      simp only [decide_eq_true_eq] at h12
      exact hne (h12.1.trans h12.2.symm))
  · rw [List.countP_filter]
    simp
  · rw [List.countP_filter]
    simp
  · rw [List.countP_filter]
    simp

/-- C2: atomicity of `delete`.  On a well-formed database containing the
group, a fault-free `delete` removes the Group document and every
GroupMember, GroupInvite and GroupApplication row keyed to the group id
(zero rows remain in the four collections) and returns the Group value as
pre-read before the mutation; if any deletion step throws, the transaction is
aborted, so the database is unchanged, and the error is re-raised. -/
theorem delete_atomicity (f : DeleteFaults) (b : Bool) (groupId : Nat)
    (db : DB) (hwf : db.WF) (g : Group) (hex : findOne groupId db = some g) :
    (f = noDeleteFaults →
      (delete f b groupId db).1 = Except.ok (some g) ∧
      (delete f b groupId db).2.1.groups.countP
        (fun g2 => g2._id = groupId) = 0 ∧
      (delete f b groupId db).2.1.members.countP
        (fun m => m.groupId = groupId) = 0 ∧
      (delete f b groupId db).2.1.invites.countP
        (fun i => i.groupId = groupId) = 0 ∧
      (delete f b groupId db).2.1.applications.countP
        (fun a => a.groupId = groupId) = 0) ∧
    (f ≠ noDeleteFaults →
      (∃ e, (delete f b groupId db).1 = Except.error e) ∧
      (delete f b groupId db).2.1 = db) := by
  constructor
  · rintro rfl
    rw [delete_noFaults_eq]
    obtain ⟨h1, h2, h3, h4⟩ := deleteCommitted_counts groupId db hwf
    exact ⟨by rw [hex], h1, h2, h3, h4⟩
  · intro hf
    exact delete_fault_eq f b groupId db hf

theorem delete_atomicity_witness :
    (memberDB.WF ∧ findOne 5 memberDB = some sampleAppGroup) ∧
    ((delete noDeleteFaults false 5 memberDB).1 =
        Except.ok (some sampleAppGroup) ∧
     (delete noDeleteFaults false 5 memberDB).2.1.members.countP
        (fun m => m.groupId = 5) = 0 ∧
     (delete noDeleteFaults false 5 memberDB).2.1.invites.countP
        (fun i => i.groupId = 5) = 0) ∧
    ((∃ e, (delete { noDeleteFaults with removeMembers := true } false 5
        memberDB).1 = Except.error e) ∧
     (delete { noDeleteFaults with removeMembers := true } false 5
        memberDB).2.1 = memberDB) :=
  ⟨⟨by decide, by decide⟩,
   ⟨((delete_atomicity noDeleteFaults false 5 memberDB (by decide)
        sampleAppGroup (by decide)).1 rfl).1,
    ((delete_atomicity noDeleteFaults false 5 memberDB (by decide)
        sampleAppGroup (by decide)).1 rfl).2.2.1,
    ((delete_atomicity noDeleteFaults false 5 memberDB (by decide)
        sampleAppGroup (by decide)).1 rfl).2.2.2.1⟩,
   (delete_atomicity { noDeleteFaults with removeMembers := true } false 5
      memberDB (by decide) sampleAppGroup (by decide)).2 (by decide)⟩

theorem delete_noop_core (b : Bool) (gid : Nat) (db : DB)
    (hg : db.groups.countP (fun g => g._id = gid) = 0)
    (hm : db.members.countP (fun m => m.groupId = gid) = 0)
    (hi : db.invites.countP (fun i => i.groupId = gid) = 0)
    (ha : db.applications.countP (fun a => a.groupId = gid) = 0) :
    delete noDeleteFaults b gid db =
      (Except.ok none, db,
       { ownStarted := !b, ownEnded := !b, borrowedEnded := false }) := by
  rw [delete_noFaults_eq]
  have h1 : findOne gid db = none :=
    List.find?_eq_none.mpr (fun x hx => by
      simpa using (List.countP_eq_zero.mp hg) x hx)
  have hgs : db.groups.eraseP (fun g => g._id = gid) = db.groups :=
    List.eraseP_of_forall_not (fun a haa => by
      simpa using (List.countP_eq_zero.mp hg) a haa)
  have hms : db.members.filter (fun m => ¬m.groupId = gid) = db.members :=
    List.filter_eq_self.mpr (fun a haa => by
      simpa using (List.countP_eq_zero.mp hm) a haa)
  have his : db.invites.filter (fun i => ¬i.groupId = gid) = db.invites :=
    List.filter_eq_self.mpr (fun a haa => by
      simpa using (List.countP_eq_zero.mp hi) a haa)
  have has : db.applications.filter (fun a => ¬a.groupId = gid) =
      db.applications :=
    List.filter_eq_self.mpr (fun a haa => by
      simpa using (List.countP_eq_zero.mp ha) a haa)
  rw [h1]
  unfold deleteCommitted
  rw [hgs, hms, his, has]

/-- C6: for a group id absent from all four collections, a fault-free
`delete` completes without throwing, leaves the database unchanged, and
returns an absent pre-read value; consequently, on a well-formed database,
running `delete` a second time right after a successful delete is a no-op
that returns absent. -/
theorem delete_missing_id_noop (b : Bool) (gid : Nat) (db db0 : DB)
    (hg : db.groups.countP (fun g => g._id = gid) = 0)
    (hm : db.members.countP (fun m => m.groupId = gid) = 0)
    (hi : db.invites.countP (fun i => i.groupId = gid) = 0)
    (ha : db.applications.countP (fun a => a.groupId = gid) = 0)
    (hwf : db0.WF) :
    delete noDeleteFaults b gid db =
      (Except.ok none, db,
       { ownStarted := !b, ownEnded := !b, borrowedEnded := false }) ∧
    ((delete noDeleteFaults b gid
        (delete noDeleteFaults b gid db0).2.1).1 = Except.ok none ∧
     (delete noDeleteFaults b gid
        (delete noDeleteFaults b gid db0).2.1).2.1 =
       (delete noDeleteFaults b gid db0).2.1) := by
  refine ⟨delete_noop_core b gid db hg hm hi ha, ?_⟩
  obtain ⟨h1, h2, h3, h4⟩ := deleteCommitted_counts gid db0 hwf
  have he : (delete noDeleteFaults b gid db0).2.1 = deleteCommitted gid db0 := by
    rw [delete_noFaults_eq]
  rw [he]
  rw [delete_noop_core b gid (deleteCommitted gid db0) h1 h2 h3 h4]
  exact ⟨rfl, rfl⟩

theorem delete_missing_id_noop_witness :
    (emptyDB.groups.countP (fun g => g._id = 5) = 0 ∧
     emptyDB.members.countP (fun m => m.groupId = 5) = 0 ∧
     emptyDB.invites.countP (fun i => i.groupId = 5) = 0 ∧
     emptyDB.applications.countP (fun a => a.groupId = 5) = 0 ∧
     memberDB.WF) ∧
    delete noDeleteFaults false 5 emptyDB =
      (Except.ok none, emptyDB,
       { ownStarted := true, ownEnded := true, borrowedEnded := false }) ∧
    (delete noDeleteFaults false 5
       (delete noDeleteFaults false 5 memberDB).2.1).1 = Except.ok none :=
  ⟨⟨by decide, by decide, by decide, by decide, by decide⟩,
   (delete_missing_id_noop false 5 emptyDB memberDB (by decide) (by decide)
      (by decide) (by decide) (by decide)).1,
   ((delete_missing_id_noop false 5 emptyDB memberDB (by decide) (by decide)
      (by decide) (by decide) (by decide)).2).1⟩

/-- C7: `countGroups uid` counts exactly the Group documents whose `createdBy`
equals `uid` and whose `appid` field is not set; a group created by the same
user with a non-empty `appid` is excluded from the count even though
`createdBy` matches, while a group with `createdBy = uid` and no `appid`
field raises the count by one. -/
theorem countGroups_excludes_appid_groups (uid : Nat) (db : DB) (g : Group)
    (_hcb : g.createdBy = uid) (s : String) (happ : g.appid = some (some s)) :
    countGroups uid db =
      (db.groups.filter
        (fun g2 => g2.createdBy = uid ∧ g2.appid = none)).length ∧
    countGroups uid { db with groups := g :: db.groups } =
      countGroups uid db ∧
    (∀ g2 : Group, g2.createdBy = uid → g2.appid = none →
      countGroups uid { db with groups := g2 :: db.groups } =
        countGroups uid db + 1) := by
  refine ⟨rfl, ?_, ?_⟩
  · simp [countGroups, List.filter_cons, happ]
  · intro g2 h1 h2
    simp [countGroups, List.filter_cons, h1, h2]

theorem countGroups_excludes_appid_groups_witness :
    (sampleAppGroup.createdBy = 7 ∧
     sampleAppGroup.appid = some (some "app1")) ∧
    (countGroups 7 emptyDB =
      (emptyDB.groups.filter
        (fun g2 => g2.createdBy = 7 ∧ g2.appid = none)).length ∧
     countGroups 7 { emptyDB with groups := sampleAppGroup :: emptyDB.groups } =
      countGroups 7 emptyDB ∧
     (∀ g2 : Group, g2.createdBy = 7 → g2.appid = none →
       countGroups 7 { emptyDB with groups := g2 :: emptyDB.groups } =
        countGroups 7 emptyDB + 1)) :=
  ⟨⟨by decide, by decide⟩,
    countGroups_excludes_appid_groups 7 emptyDB sampleAppGroup
      (by decide) "app1" (by decide)⟩

theorem findOneAndUpdateGroups_none (gid : Nat) (dto : GroupDto) (now : Nat)
    (gs : List Group) (h : ∀ g ∈ gs, ¬g._id = gid) :
    findOneAndUpdateGroups gid dto now gs = (none, gs) := by
  induction gs with
  | nil => rfl
  | cons g gs ih =>
    have hg : ¬g._id = gid := h g (List.mem_cons_self g gs)
    simp only [findOneAndUpdateGroups, if_neg hg]
    rw [ih (fun x hx => h x (List.mem_cons_of_mem g hx))]

theorem findOneAndUpdateGroups_some (gid : Nat) (dto : GroupDto) (now : Nat)
    (l1 l2 : List Group) (g : Group) (h1 : ∀ x ∈ l1, ¬x._id = gid)
    (hg : g._id = gid) :
    findOneAndUpdateGroups gid dto now (l1 ++ g :: l2) =
      (some (applyDto g dto now), l1 ++ applyDto g dto now :: l2) := by
  induction l1 with
  | nil => simp only [List.nil_append, findOneAndUpdateGroups, if_pos hg]
  | cons x l1 ih =>
    have hx : ¬x._id = gid := h1 x (List.mem_cons_self x l1)
    simp only [List.cons_append, findOneAndUpdateGroups, if_neg hx,
      List.append_eq]
    rw [ih (fun y hy => h1 y (List.mem_cons_of_mem x hy))]

/-- C9: `update` merges the supplied dto fields into the matching Group
document, always stamps `updatedAt` with the current time (overriding any
`updatedAt` supplied in the dto, which never reaches the stored document),
and returns the post-update document; when no Group matches the id, it
returns absent without raising an exception and the database is unchanged. -/
theorem update_merge_semantics (gid now : Nat) (dto : GroupDto) (db : DB) :
    (findOne gid db = none → update gid dto now db = (none, db)) ∧
    (∀ g, findOne gid db = some g →
      (update gid dto now db).1 = some (applyDto g dto now) ∧
      (applyDto g dto now).updatedAt = now ∧
      (applyDto g dto now)._id = g._id ∧
      (applyDto g dto now).name = dto.name.getD g.name ∧
      (applyDto g dto now).createdBy = dto.createdBy.getD g.createdBy ∧
      (applyDto g dto now).createdAt = dto.createdAt.getD g.createdAt ∧
      (∀ v, dto.appid = some v → (applyDto g dto now).appid = some (some v)) ∧
      (dto.appid = none → (applyDto g dto now).appid = g.appid) ∧
      ∃ l1 l2, db.groups = l1 ++ g :: l2 ∧ (∀ x ∈ l1, ¬x._id = gid) ∧
        (update gid dto now db).2.groups = l1 ++ applyDto g dto now :: l2) := by
  constructor
  · intro h
    have hall : ∀ x ∈ db.groups, ¬x._id = gid := fun x hx => by
      simpa using List.find?_eq_none.mp h x hx
    unfold update
    rw [findOneAndUpdateGroups_none gid dto now db.groups hall]
  · intro g hgf
    obtain ⟨hpg, l1, l2, hsplit, hprev⟩ := List.find?_eq_some.mp hgf
    have hg : g._id = gid := by simpa using hpg
    have h1 : ∀ x ∈ l1, ¬x._id = gid := fun x hx => by
      simpa using hprev x hx
    have hupd : findOneAndUpdateGroups gid dto now db.groups =
        (some (applyDto g dto now), l1 ++ applyDto g dto now :: l2) := by
      rw [hsplit]
      exact findOneAndUpdateGroups_some gid dto now l1 l2 g h1 hg
    refine ⟨?_, rfl, rfl, rfl, rfl, rfl, ?_, ?_, l1, l2, hsplit, h1, ?_⟩
    · unfold update
      rw [hupd]
    · intro v hv
      simp [applyDto, hv]
    · intro hv
      simp [applyDto, hv]
    · unfold update
      rw [hupd]

/-- A sample partial-update dto used in concrete witnesses: it renames the
group and supplies an `updatedAt` value that the service must override. -/
def sampleDto : GroupDto :=
  { name := some "renamed", appid := none, createdBy := none,
    createdAt := none, updatedAt := some 99 }

theorem update_merge_semantics_witness :
    (findOne 9 emptyDB = none ∧
     update 9 sampleDto 3 emptyDB = (none, emptyDB)) ∧
    (findOne 5 memberDB = some sampleAppGroup ∧
     (update 5 sampleDto 3 memberDB).1 =
       some (applyDto sampleAppGroup sampleDto 3) ∧
     (applyDto sampleAppGroup sampleDto 3).updatedAt = 3) :=
  ⟨⟨by decide, (update_merge_semantics 9 3 sampleDto emptyDB).1 (by decide)⟩,
   ⟨by decide,
    ((update_merge_semantics 5 3 sampleDto memberDB).2 sampleAppGroup
      (by decide)).1,
    ((update_merge_semantics 5 3 sampleDto memberDB).2 sampleAppGroup
      (by decide)).2.1⟩⟩

/-- C5: `findOneWithRole` returns at most one row; it yields absent, not an
error, exactly when the caller has no membership row for the group or the
Group document does not exist; in particular a dangling GroupMember row whose
group was deleted yields absent rather than a phantom group, and any returned
row is built from the caller's own membership row and the existing Group
document. -/
theorem findOneWithRole_inner_join (gid uid : Nat) (db : DB) :
    (findOneWithRole gid uid db = none ↔
      (¬∃ m ∈ db.members, m.groupId = gid ∧ m.uid = uid) ∨
      ¬∃ g ∈ db.groups, g._id = gid) ∧
    (∀ r, findOneWithRole gid uid db = some r →
      ∃ m ∈ db.members, ∃ g ∈ db.groups,
        m.groupId = gid ∧ m.uid = uid ∧ g._id = gid ∧
        r = { _id := g._id, name := g.name, createdAt := g.createdAt,
              updatedAt := g.updatedAt, role := m.role }) := by
  constructor
  · rw [findOneWithRole, List.head?_eq_none_iff, List.flatMap_eq_nil_iff]
    constructor
    · intro h
      by_cases hm : ∃ m ∈ db.members, m.groupId = gid ∧ m.uid = uid
      · right
        obtain ⟨m, hmm, hgidm, huidm⟩ := hm
        have hmem : m ∈ db.members.filter
            (fun m2 => m2.groupId = gid ∧ m2.uid = uid) :=
          List.mem_filter.mpr ⟨hmm, by simp [hgidm, huidm]⟩
        have hnil := h m hmem
        rw [List.map_eq_nil_iff, List.filter_eq_nil_iff] at hnil
        rintro ⟨g, hgg, hid⟩
        exact hnil g hgg (by simp [hid, hgidm])
      · exact Or.inl hm
    · intro h m hmem
      rw [List.mem_filter] at hmem
      have hm2 : m.groupId = gid ∧ m.uid = uid := by simpa using hmem.2
      rcases h with h | h
      · exact absurd ⟨m, hmem.1, hm2⟩ h
      · rw [List.map_eq_nil_iff, List.filter_eq_nil_iff]
        intro g hgg hp
        have hp2 : g._id = m.groupId := by simpa using hp
        exact h ⟨g, hgg, hp2.trans hm2.1⟩
  · intro r hr
    rw [findOneWithRole] at hr
    have hrl := List.mem_of_mem_head? (Option.mem_def.mpr hr)
    rw [List.mem_flatMap] at hrl
    obtain ⟨m, hm, hr2⟩ := hrl
    rw [List.mem_map] at hr2
    obtain ⟨g, hg, hr3⟩ := hr2
    rw [List.mem_filter] at hm hg
    have hm2 : m.groupId = gid ∧ m.uid = uid := by simpa using hm.2
    have hg2 : g._id = m.groupId := by simpa using hg.2
    exact ⟨m, hm.1, g, hg.1, hm2.1, hm2.2, hg2.trans hm2.1, hr3.symm⟩

/-- A database with a dangling membership row: the member references group 5
but the Group collection is empty, as after an external deletion. -/
def danglingDB : DB :=
  { groups := [],
    members := [{ groupId := 5, uid := 7, role := GroupRole.Owner }],
    invites := [], applications := [] }

theorem findOneWithRole_inner_join_witness :
    (findOneWithRole 5 7 memberDB =
      some { _id := 5, name := "g", createdAt := 0, updatedAt := 0,
             role := GroupRole.Owner } ∧
     ∃ m ∈ memberDB.members, ∃ g ∈ memberDB.groups,
       m.groupId = 5 ∧ m.uid = 7 ∧ g._id = 5 ∧
       ({ _id := 5, name := "g", createdAt := 0, updatedAt := 0,
          role := GroupRole.Owner } : RoleRow) =
         { _id := g._id, name := g.name, createdAt := g.createdAt,
           updatedAt := g.updatedAt, role := m.role }) ∧
    findOneWithRole 5 7 danglingDB = none :=
  ⟨⟨by decide,
    (findOneWithRole_inner_join 5 7 memberDB).2
      { _id := 5, name := "g", createdAt := 0, updatedAt := 0,
        role := GroupRole.Owner } (by decide)⟩,
   (findOneWithRole_inner_join 5 7 danglingDB).1.mpr
     (Or.inr (by decide))⟩

/-- C8: a `create` call with the appid argument omitted still stores the
Group document with the appid key present and null (the driver serializes the
undefined value as null), so the new document satisfies the `appid: null`
match used by `findAll` but not the `$exists: false` match of `countGroups`;
creating a plain group leaves `countGroups createdBy` unchanged. -/
theorem create_plain_group_appid_null (newId now : Nat) (name : String)
    (createdBy : Nat) (db : DB) :
    (create noCreateFaults newId now name createdBy none db).2.1.groups =
      db.groups ++ [{ _id := newId, name := name, appid := some none,
                      createdBy := createdBy, createdAt := now,
                      updatedAt := now }] ∧
    matchesNull (some none) = true ∧
    (some none : Option (Option String)) ≠ none ∧
    countGroups createdBy
        (create noCreateFaults newId now name createdBy none db).2.1 =
      countGroups createdBy db := by
  refine ⟨rfl, rfl, by simp, ?_⟩
  show (((db.groups ++ [_]).filter _).length) = countGroups createdBy db
  simp [countGroups, List.filter_append]

/-- C10: `delete` with a borrowed session never ends it, whether the
operation succeeds or fails; `delete` without a supplied session starts its
own session and always ends it; `create` always ends the session it started,
on success and on failure (the fault assignment ranges over all outcomes). -/
theorem session_lifecycle (f : DeleteFaults) (fc : CreateFaults)
    (groupId newId now : Nat) (name : String) (createdBy : Nat)
    (appid : Option String) (db : DB) :
    (delete f true groupId db).2.2.borrowedEnded = false ∧
    (delete f false groupId db).2.2.ownStarted = true ∧
    (delete f false groupId db).2.2.ownEnded = true ∧
    (create fc newId now name createdBy appid db).2.2.ownStarted = true ∧
    (create fc newId now name createdBy appid db).2.2.ownEnded = true := by
  simp [delete_log, create_log]

/-- C3: `findAll uid` returns exactly one row per group in which the user has
a membership row and whose Group document has the appid field absent or null
(the `appid: null` match), dropping membership rows whose group is missing or
application-scoped; each returned row carries the group's id, name,
createdAt, updatedAt and a members array with the (role, uid) pair of every
membership row of that group, not just the caller's. -/
theorem findAll_filtered_join (uid : Nat) (db : DB) (hwf : db.WF)
    (gid : Nat) :
    ((findAll uid db).countP (fun r => r._id = gid) =
      if (∃ m ∈ db.members, m.groupId = gid ∧ m.uid = uid) ∧
         (∃ g ∈ db.groups, g._id = gid ∧ matchesNull g.appid = true)
      then 1 else 0) ∧
    (∀ r ∈ findAll uid db, ∃ g ∈ db.groups, ∃ m ∈ db.members,
      m.uid = uid ∧ m.groupId = g._id ∧ matchesNull g.appid = true ∧
      r = { _id := g._id, name := g.name, createdAt := g.createdAt,
            updatedAt := g.updatedAt,
            members := (db.members.filter
              (fun m2 => m2.groupId = g._id)).map
                (fun m2 => (m2.role, m2.uid)) }) := by
  constructor
  · rw [findAll, countP_flatMap_eq_sum]
    have hpt : ∀ m ∈ db.members.filter (fun m => m.uid = uid),
        ((db.groups.filter
            (fun g => g._id = m.groupId ∧ matchesNull g.appid)).map
          (fun g =>
            ({ _id := g._id, name := g.name, createdAt := g.createdAt,
               updatedAt := g.updatedAt,
               members := (db.members.filter
                 (fun m2 => m2.groupId = m.groupId)).map
                   (fun m2 => (m2.role, m2.uid)) } : FindAllRow))).countP
          (fun r => r._id = gid) =
        if m.groupId = gid then
          db.groups.countP (fun g => g._id = gid ∧ matchesNull g.appid)
        else 0 := by
      intro m _hm
      rw [List.countP_map, List.countP_filter]
      by_cases hmg : m.groupId = gid
      · rw [if_pos hmg]
        apply List.countP_congr
        intro g _hg
        simp only [Function.comp_apply, Bool.and_eq_true, decide_eq_true_eq]
        constructor
        · rintro ⟨h1, h2, h3⟩
          exact ⟨h1, h3⟩
        · rintro ⟨h1, h3⟩
          exact ⟨h1, hmg ▸ h1, h3⟩
      · rw [if_neg hmg]
        apply List.countP_eq_zero.mpr
        intro g _hg
        simp only [Function.comp_apply, Bool.and_eq_true, decide_eq_true_eq]
        rintro ⟨h1, h2, h3⟩
        exact hmg (h2 ▸ h1.symm ▸ rfl)
    rw [List.map_congr_left hpt, sum_map_ite_count, List.countP_filter]
    have hGpair : db.groups.Pairwise (fun a b =>
        ¬((fun g => decide (g._id = gid ∧ matchesNull g.appid = true)) a =
            true ∧
          (fun g => decide (g._id = gid ∧ matchesNull g.appid = true)) b =
            true)) := by
      have hp := List.pairwise_map.mp hwf.1
      exact hp.imp (fun hne h12 => by
        simp only [decide_eq_true_eq] at h12
        exact hne (h12.1.1.trans h12.2.1.symm))
    have hMpair : db.members.Pairwise (fun a b =>
        ¬((fun x => decide (x.groupId = gid) && decide (x.uid = uid)) a =
            true ∧
          (fun x => decide (x.groupId = gid) && decide (x.uid = uid)) b =
            true)) := by
      have hp := List.pairwise_map.mp hwf.2.1
      exact hp.imp (fun hne h12 => by
        simp only [Bool.and_eq_true, decide_eq_true_eq] at h12
        exact hne (by rw [h12.1.1, h12.1.2, h12.2.1, h12.2.2]))
    rw [countP_eq_ite_of_pairwise hGpair, countP_eq_ite_of_pairwise hMpair]
    simp only [Bool.and_eq_true, decide_eq_true_eq]
    by_cases hA : ∃ m ∈ db.members, m.groupId = gid ∧ m.uid = uid
    · by_cases hB : ∃ g ∈ db.groups, g._id = gid ∧ matchesNull g.appid = true
      · simp [hA, hB]
      · simp [hA, hB]
    · simp [hA]
  · intro r hr
    rw [findAll, List.mem_flatMap] at hr
    obtain ⟨m, hm, hr2⟩ := hr
    rw [List.mem_map] at hr2
    obtain ⟨g, hg, hr3⟩ := hr2
    rw [List.mem_filter] at hm hg
    have hm2 : m.uid = uid := by simpa using hm.2
    have hg2 : g._id = m.groupId ∧ matchesNull g.appid = true := by
      simpa using hg.2
    refine ⟨g, hg.1, m, hm.1, hm2, hg2.1.symm, hg2.2, ?_⟩
    rw [← hr3, hg2.1]

/-- Witness database for the filtered join: user 7 is a member of plain group
1 (appid key present and null) and of application-scoped group 5. -/
def c3DB : DB :=
  { groups := [{ _id := 1, name := "plain", appid := some none,
                 createdBy := 7, createdAt := 0, updatedAt := 0 },
               { _id := 5, name := "g", appid := some (some "app1"),
                 createdBy := 7, createdAt := 0, updatedAt := 0 }],
    members := [{ groupId := 1, uid := 7, role := GroupRole.Owner },
                { groupId := 5, uid := 7, role := GroupRole.Member }],
    invites := [], applications := [] }

theorem findAll_filtered_join_witness :
    c3DB.WF ∧
    (findAll 7 c3DB).countP (fun r => r._id = 1) = 1 ∧
    (findAll 7 c3DB).countP (fun r => r._id = 5) = 0 :=
  ⟨by decide,
   ((findAll_filtered_join 7 c3DB (by decide) 1).1).trans (by decide),
   ((findAll_filtered_join 7 c3DB (by decide) 5).1).trans (by decide)⟩

/-- C4: `findGroupsByAppidAndUid appid uid` returns one row per group that
has a GroupApplication record with that appid, a resolvable Group document,
and a GroupMember row for exactly that (groupId, uid) pair; the role in each
row is the given user's own role, and a group under that appid in which the
given user has no membership row never appears. -/
theorem findGroupsByAppidAndUid_correlated_join (appid : String) (uid : Nat)
    (db : DB) (hwf : db.WF) (gid : Nat) :
    ((findGroupsByAppidAndUid appid uid db).countP (fun r => r._id = gid) =
      if (∃ a ∈ db.applications, a.groupId = gid ∧ a.appid = some appid) ∧
         (∃ g ∈ db.groups, g._id = gid) ∧
         (∃ m ∈ db.members, m.groupId = gid ∧ m.uid = uid)
      then 1 else 0) ∧
    (∀ r ∈ findGroupsByAppidAndUid appid uid db,
      ∃ a ∈ db.applications, a.appid = some appid ∧
      ∃ g ∈ db.groups, g._id = a.groupId ∧
      ∃ m ∈ db.members, m.groupId = a.groupId ∧ m.uid = uid ∧
        r = { _id := g._id, name := g.name, createdAt := g.createdAt,
              updatedAt := g.updatedAt, role := m.role }) := by
  constructor
  · rw [findGroupsByAppidAndUid, countP_flatMap_eq_sum]
    have hpt : ∀ a ∈ db.applications.filter (fun a => a.appid = some appid),
        ((db.groups.filter (fun g => g._id = a.groupId)).flatMap (fun g =>
          (db.members.filter
            (fun m => m.groupId = a.groupId ∧ m.uid = uid)).map
            (fun m =>
              ({ _id := g._id, name := g.name, createdAt := g.createdAt,
                 updatedAt := g.updatedAt, role := m.role } :
                RoleRow)))).countP (fun r => r._id = gid) =
        if a.groupId = gid then
          db.members.countP (fun m => m.groupId = gid ∧ m.uid = uid) *
            db.groups.countP (fun g => g._id = gid)
        else 0 := by
      intro a _ha
      rw [countP_flatMap_eq_sum]
      have hpt2 : ∀ g ∈ db.groups.filter (fun g => g._id = a.groupId),
          ((db.members.filter
            (fun m => m.groupId = a.groupId ∧ m.uid = uid)).map
            (fun m =>
              ({ _id := g._id, name := g.name, createdAt := g.createdAt,
                 updatedAt := g.updatedAt, role := m.role } :
                RoleRow))).countP (fun r => r._id = gid) =
          if g._id = gid then
            (db.members.filter
              (fun m => m.groupId = a.groupId ∧ m.uid = uid)).length
          else 0 := by
        intro g _hg
        rw [List.countP_map]
        by_cases hgg : g._id = gid
        · rw [if_pos hgg]
          have : ((fun r : RoleRow => decide (r._id = gid)) ∘
              (fun m : GroupMember =>
                ({ _id := g._id, name := g.name, createdAt := g.createdAt,
                   updatedAt := g.updatedAt, role := m.role } : RoleRow))) =
              fun _ => true := by
            funext m
            simp [Function.comp, hgg]
          rw [this, List.countP_true]
        · rw [if_neg hgg]
          apply List.countP_eq_zero.mpr
          intro m _hm
          simp only [Function.comp_apply, decide_eq_true_eq]
          exact hgg
      rw [List.map_congr_left hpt2, sum_map_ite_count, List.countP_filter]
      by_cases ha2 : a.groupId = gid
      · rw [if_pos ha2, ha2]
        rw [List.countP_eq_length_filter]
        have : (fun g : Group =>
            decide (g._id = gid) && decide (g._id = gid)) =
            fun g : Group => decide (g._id = gid) := by
          funext g
          cases h : decide (g._id = gid) <;> simp
        rw [this]
        rw [← List.countP_eq_length_filter, ← List.countP_eq_length_filter]
      · rw [if_neg ha2]
        have hz : db.groups.countP (fun g =>
            decide (g._id = gid) && decide (g._id = a.groupId)) = 0 := by
          apply List.countP_eq_zero.mpr
          intro g _hg
          simp only [Bool.and_eq_true, decide_eq_true_eq]
          rintro ⟨h1, h2⟩
          exact ha2 (h2 ▸ h1.symm ▸ rfl)
        rw [hz, Nat.mul_zero]
    rw [List.map_congr_left hpt, sum_map_ite_count, List.countP_filter]
    have hApair : db.applications.Pairwise (fun a b =>
        ¬((fun x => decide (x.groupId = gid) &&
            decide (x.appid = some appid)) a = true ∧
          (fun x => decide (x.groupId = gid) &&
            decide (x.appid = some appid)) b = true)) := by
      have hp := List.pairwise_map.mp hwf.2.2
      exact hp.imp (fun hne h12 => by
        simp only [Bool.and_eq_true, decide_eq_true_eq] at h12
        exact hne (h12.1.1.trans h12.2.1.symm))
    have hGpair : db.groups.Pairwise (fun a b =>
        ¬((fun g => decide (g._id = gid)) a = true ∧
          (fun g => decide (g._id = gid)) b = true)) := by
      have hp := List.pairwise_map.mp hwf.1
      exact hp.imp (fun hne h12 => by
        simp only [decide_eq_true_eq] at h12
        exact hne (h12.1.trans h12.2.symm))
    have hMpair : db.members.Pairwise (fun a b =>
        ¬((fun x => decide (x.groupId = gid ∧ x.uid = uid)) a = true ∧
          (fun x => decide (x.groupId = gid ∧ x.uid = uid)) b = true)) := by
      have hp := List.pairwise_map.mp hwf.2.1
      exact hp.imp (fun hne h12 => by
        simp only [decide_eq_true_eq] at h12
        exact hne (by rw [h12.1.1, h12.1.2, h12.2.1, h12.2.2]))
    rw [countP_eq_ite_of_pairwise hApair, countP_eq_ite_of_pairwise hGpair,
      countP_eq_ite_of_pairwise hMpair]
    simp only [Bool.and_eq_true, decide_eq_true_eq]
    by_cases hA : ∃ a ∈ db.applications, a.groupId = gid ∧
        a.appid = some appid
    · by_cases hB : ∃ g ∈ db.groups, g._id = gid
      · by_cases hC : ∃ m ∈ db.members, m.groupId = gid ∧ m.uid = uid
        · simp [hA, hB, hC]
        · simp [hA, hB, hC]
      · simp [hA, hB]
    · simp [hA]
  · intro r hr
    rw [findGroupsByAppidAndUid, List.mem_flatMap] at hr
    obtain ⟨a, ha, hr1⟩ := hr
    rw [List.mem_flatMap] at hr1
    obtain ⟨g, hg, hr2⟩ := hr1
    rw [List.mem_map] at hr2
    obtain ⟨m, hm, hr3⟩ := hr2
    rw [List.mem_filter] at ha hg hm
    have ha2 : a.appid = some appid := by simpa using ha.2
    have hg2 : g._id = a.groupId := by simpa using hg.2
    have hm2 : m.groupId = a.groupId ∧ m.uid = uid := by simpa using hm.2
    exact ⟨a, ha.1, ha2, g, hg.1, hg2, m, hm.1, hm2.1, hm2.2, hr3.symm⟩

/-- Witness database for the correlated join: users 7 and 8 own different
groups (1 and 2) under the same application id. -/
def c4DB : DB :=
  { groups := [{ _id := 1, name := "g1", appid := some (some "app1"),
                 createdBy := 7, createdAt := 0, updatedAt := 0 },
               { _id := 2, name := "g2", appid := some (some "app1"),
                 createdBy := 8, createdAt := 0, updatedAt := 0 }],
    members := [{ groupId := 1, uid := 7, role := GroupRole.Owner },
                { groupId := 2, uid := 8, role := GroupRole.Owner }],
    invites := [],
    applications := [{ groupId := 1, appid := some "app1" },
                     { groupId := 2, appid := some "app1" }] }

theorem findGroupsByAppidAndUid_correlated_join_witness :
    c4DB.WF ∧
    (findGroupsByAppidAndUid "app1" 7 c4DB).countP
      (fun r => r._id = 1) = 1 ∧
    (findGroupsByAppidAndUid "app1" 7 c4DB).countP
      (fun r => r._id = 2) = 0 ∧
    (findGroupsByAppidAndUid "app1" 8 c4DB).countP
      (fun r => r._id = 2) = 1 :=
  ⟨by decide,
   ((findGroupsByAppidAndUid_correlated_join "app1" 7 c4DB
      (by decide) 1).1).trans (by decide),
   ((findGroupsByAppidAndUid_correlated_join "app1" 7 c4DB
      (by decide) 2).1).trans (by decide),
   ((findGroupsByAppidAndUid_correlated_join "app1" 8 c4DB
      (by decide) 2).1).trans (by decide)⟩

end GroupService
